import Mathlib

/-!
A verification development for the Krita Dynamic Panel Manager plugin
(`panel_layout_manager.py`, `panel_manager_extension.py`,
`drag_drop_panel_widget.py`).

The Python code is shallowly embedded: Python values that flow through the
layout manager are modelled by `PyObj` (with dict keys drawn from the flat
hashable fragment `PyKey`), Python exceptions by `PyErr`, and each method
body by a Lean function returning its result together with the exception it
raises, if any.  The `try/except` wrapper that every method carries is
modelled explicitly, so theorems can talk both about the raw body and about
the caught-and-logged boundary behaviour.
-/

namespace KritaPanel

/-- Geometry of a `QRect`: integer x, y, width, height. -/
structure QRect where
  x : Int
  y : Int
  width : Int
  height : Int
deriving DecidableEq, Repr

/-- A `QPoint`: integer coordinates. -/
structure QPoint where
  x : Int
  y : Int
deriving DecidableEq, Repr

/-- A `QSize`: integer width and height. -/
structure QSize where
  w : Int
  h : Int
deriving DecidableEq, Repr

/-- The hashable Python scalars this plugin ever uses as dict keys. -/
inductive PyKey where
  | pyNone
  | bool (b : Bool)
  | int (n : Int)
  | str (s : String)
deriving DecidableEq, Repr

/-- The Python values that flow through the layout manager: `None`, `bool`,
`int`, `str`, `QRect` objects, lists and dicts (a dict is its insertion-ordered
key/value list). -/
inductive PyObj where
  | pyNone
  | bool (b : Bool)
  | int (n : Int)
  | str (s : String)
  | rect (r : QRect)
  | list (items : List PyObj)
  | dict (items : List (PyKey × PyObj))

/-- The Python exceptions the embedded code can raise. -/
inductive PyErr where
  | typeError
  | valueError
  | keyError (k : PyKey)
  | nameError (n : String)
  | attributeError (n : String)
deriving DecidableEq, Repr

/-- Python `==` on dict keys; `True == 1` and `False == 0` hold in Python, so
booleans compare equal to the corresponding ints. -/
def pyKeyEq : PyKey → PyKey → Bool
  | .pyNone, .pyNone => true
  | .bool a, .bool b => a == b
  | .bool a, .int b => (if a then (1 : Int) else 0) == b
  | .int a, .bool b => a == (if b then (1 : Int) else 0)
  | .int a, .int b => a == b
  | .str a, .str b => a == b
  | _, _ => false

/-- The check `isinstance(k, int)` on a dict key: Python `bool` is a subtype of `int`. -/
def pyKeyIsInt : PyKey → Bool
  | .int _ => true
  | .bool _ => true
  | _ => false

/-- The check `isinstance(v, bool)`. -/
def pyIsBool : PyObj → Bool
  | .bool _ => true
  | _ => false

/-- The check `isinstance(v, QRect)`. -/
def pyIsRect : PyObj → Bool
  | .rect _ => true
  | _ => false

/-- Lookup in a dict's key/value list (Python dict keys are unique up to
`pyKeyEq`; lookup returns the first match). -/
def assocFind? (items : List (PyKey × PyObj)) (k : PyKey) : Option PyObj :=
  (items.find? (fun kv => pyKeyEq kv.1 k)).map Prod.snd

/-- The Python `in` operator, as used on dict containers; on a list it tests
membership of the key among string/scalar items; on any other value it raises
`TypeError`. -/
def pyContains (container : PyObj) (k : PyKey) : Except PyErr Bool :=
  match container with
  | .dict items => .ok (assocFind? items k).isSome
  | .list items => .ok (items.any (fun it => match k, it with
      | .str a, .str b => a == b
      | .int a, .int b => a == b
      | .bool a, .bool b => a == b
      | .pyNone, .pyNone => true
      | _, _ => false))
  | _ => .error .typeError

/-- Python subscript `container[k]`: dict lookup raising `KeyError` when the
key is missing, `TypeError` on a non-dict. -/
def pyGetItem (container : PyObj) (k : PyKey) : Except PyErr PyObj :=
  match container with
  | .dict items =>
    match assocFind? items k with
    | some v => .ok v
    | none => .error (.keyError k)
  | _ => .error .typeError

/-! ## Python decimal strings

`saveLayout` writes dict keys with `str(column_id)` and `loadLayout` reads
them back with `int(column_id)`.  Python renders an int as its decimal
numeral (with a leading minus sign when negative) and `int` parses such a
numeral; `natDigits`/`readDigits` embed exactly that pair. -/

/-- The character of a single decimal digit. -/
def digitChar (d : Nat) : Char := Char.ofNat (48 + d)

/-- Big-endian decimal digit list of a natural number (Python's `str`). -/
def natDigits (n : Nat) : List Char :=
  if h : n < 10 then [digitChar n]
  else natDigits (n / 10) ++ [digitChar (n % 10)]
decreasing_by exact Nat.div_lt_self (by omega) (by omega)

/-- Python `str(i)` for an int: decimal digits, minus sign when negative. -/
def pyStrOfInt (i : Int) : String :=
  if i < 0 then "-" ++ String.mk (natDigits i.natAbs)
  else String.mk (natDigits i.toNat)

/-- Value of one decimal digit character, `none` on a non-digit. -/
def digitVal? (c : Char) : Option Nat :=
  if 48 ≤ c.toNat ∧ c.toNat ≤ 57 then some (c.toNat - 48) else none

/-- Left-to-right accumulation of decimal digits; `none` on a non-digit. -/
def readDigits (acc : Nat) : List Char → Option Nat
  | [] => some acc
  | c :: cs =>
    match digitVal? c with
    | some d => readDigits (acc * 10 + d) cs
    | none => none

/-- Python `int(s)` on the decimal fragment `str` produces: an optional minus
sign followed by at least one digit.  (`int` also tolerates surrounding
whitespace, a `+` sign and underscores; those inputs never arise from
`str(column_id)` and are not modelled.) -/
def pyIntOfString (s : String) : Option Int :=
  match s.data with
  | [] => none
  | c :: cs =>
    if c = '-' then
      if cs.isEmpty then none
      else (readDigits 0 cs).map (fun n => -(Int.ofNat n))
    else (readDigits 0 (c :: cs)).map Int.ofNat

theorem digitVal?_digitChar : ∀ d : Nat, d < 10 → digitVal? (digitChar d) = some d := by
  decide

theorem digitChar_toNat : ∀ d : Nat, d < 10 →
    48 ≤ (digitChar d).toNat ∧ (digitChar d).toNat ≤ 57 := by
  decide

theorem readDigits_snoc (ds : List Char) (c : Char) : ∀ acc : Nat,
    readDigits acc (ds ++ [c]) =
      (readDigits acc ds).bind (fun n => (digitVal? c).map (fun d => n * 10 + d)) := by
  induction ds with
  | nil =>
    intro acc
    simp only [List.nil_append, readDigits, Option.some_bind']
    cases hd : digitVal? c with
    | none => simp [readDigits, hd]
    | some d => simp [readDigits, hd]
  | cons c' ds ih =>
    intro acc
    simp only [List.cons_append, readDigits]
    cases hd : digitVal? c' with
    | none => rfl
    | some d => exact ih (acc * 10 + d)

theorem readDigits_natDigits (n : Nat) : readDigits 0 (natDigits n) = some n := by
  induction n using Nat.strong_induction_on with
  | _ n ih =>
    rw [natDigits]
    split
    · rename_i hlt
      simp [readDigits, digitVal?_digitChar n hlt]
    · rename_i hge
      have hdiv : n / 10 < n := Nat.div_lt_self (by omega) (by omega)
      rw [readDigits_snoc, ih (n / 10) hdiv, Option.some_bind',
        digitVal?_digitChar (n % 10) (Nat.mod_lt n (by omega))]
      simp only [Option.map_some', Option.some.injEq]
      omega

theorem natDigits_cons (n : Nat) : ∃ c cs, natDigits n = c :: cs ∧
    48 ≤ c.toNat ∧ c.toNat ≤ 57 := by
  induction n using Nat.strong_induction_on with
  | _ n ih =>
    rw [natDigits]
    split
    · rename_i hlt
      exact ⟨digitChar n, [], rfl, (digitChar_toNat n hlt).1, (digitChar_toNat n hlt).2⟩
    · rename_i hge
      have hdiv : n / 10 < n := Nat.div_lt_self (by omega) (by omega)
      obtain ⟨c, cs, heq, h1, h2⟩ := ih (n / 10) hdiv
      exact ⟨c, cs ++ [digitChar (n % 10)], by rw [heq]; rfl, h1, h2⟩

theorem pyIntOfString_mk_cons (c : Char) (cs : List Char) :
    pyIntOfString (String.mk (c :: cs)) =
      if c = '-' then
        (if cs.isEmpty then none else (readDigits 0 cs).map (fun n => -(Int.ofNat n)))
      else (readDigits 0 (c :: cs)).map Int.ofNat := rfl

/-- The law `int(str(i)) = i`: the decimal round trip for the dict keys of a saved
layout. -/
theorem pyIntOfString_pyStrOfInt (i : Int) : pyIntOfString (pyStrOfInt i) = some i := by
  by_cases hneg : i < 0
  · obtain ⟨c, cs, heq, h48, h57⟩ := natDigits_cons i.natAbs
    have hstr : pyStrOfInt i = String.mk ('-' :: natDigits i.natAbs) := by
      unfold pyStrOfInt
      rw [if_pos hneg]
      rfl
    rw [hstr, pyIntOfString_mk_cons, if_pos rfl, heq]
    simp only [List.isEmpty_cons, Bool.false_eq_true, if_false]
    rw [← heq, readDigits_natDigits]
    simp only [Option.map_some', Option.some.injEq, Int.ofNat_eq_natCast]
    omega
  · obtain ⟨c, cs, heq, h48, h57⟩ := natDigits_cons i.toNat
    have hcne : ¬ c = '-' := by
      intro h
      rw [h] at h48
      have h45 : ('-' : Char).toNat = 45 := by decide
      omega
    have hstr : pyStrOfInt i = String.mk (natDigits i.toNat) := by
      unfold pyStrOfInt
      rw [if_neg hneg]
    rw [hstr, heq, pyIntOfString_mk_cons, if_neg hcne, ← heq, readDigits_natDigits]
    simp only [Option.map_some', Option.some.injEq, Int.ofNat_eq_natCast]
    omega

/-! ## `panel_layout_manager.py` — `PanelLayoutManager`

`saveLayout` serialises a dict of live panels to a JSON file keyed by
`str(column_id)`; `loadLayout` reads it back, rebuilding integer keys with
`int(column_id)` and a `QRect` from the four geometry fields; both return
their failure as `False`/`None` through a `try/except` boundary. -/

/-- A live panel as `saveLayout` observes it: `panel.geometry()` and
`panel.isVisible()`. -/
structure Panel where
  geometry : QRect
  visible : Bool
deriving DecidableEq, Repr

/-- One entry of the dict `loadLayout` rebuilds: a `QRect` under
`'geometry'` and the stored `'visible'` value, which `loadLayout` copies
without any type check. -/
structure LoadedEntry where
  geometry : QRect
  visible : PyObj

/-- The persisted layout file: absent, present but not valid JSON (so that
`json.load` raises), or present with parsed content `v`. -/
inductive FileState where
  | absent
  | invalidJson
  | json (v : PyObj)

/-- The manager's persistent state: whether `_get_config_path` succeeded
(`config_path` is not `None`) and the file at that path. -/
structure LayoutStore where
  hasConfigPath : Bool
  file : FileState

/-- Python dict assignment `d[k] = v` on an association list keyed by ints:
replace the value at an existing key in place, else append. -/
def assocSet {β : Type} (m : List (Int × β)) (k : Int) (v : β) : List (Int × β) :=
  match m with
  | [] => [(k, v)]
  | (k', v') :: rest => if k' = k then (k, v) :: rest else (k', v') :: assocSet rest k v

/-- The serialised form of one panel, as `saveLayout` builds it. -/
def serializePanel (p : Panel) : PyObj :=
  .dict [(.str "x", .int p.geometry.x), (.str "y", .int p.geometry.y),
         (.str "width", .int p.geometry.width), (.str "height", .int p.geometry.height),
         (.str "visible", .bool p.visible)]

/-- The dict `layout_data` as built by the loop in `saveLayout`: each column id is
rendered with `str(column_id)`. -/
def serializeLayout (panel_columns : List (Int × Panel)) : List (PyKey × PyObj) :=
  panel_columns.map (fun cp => (.str (pyStrOfInt cp.1), serializePanel cp.2))

/-- Method `saveLayout`: raises (caught, returning `False`) when `config_path` is
unset; otherwise writes the serialised dict and returns `True`. -/
def saveLayout (st : LayoutStore) (panel_columns : List (Int × Panel)) :
    LayoutStore × Bool :=
  if st.hasConfigPath then
    ({ hasConfigPath := true, file := .json (.dict (serializeLayout panel_columns)) }, true)
  else (st, false)

/-- Python's `int(v)` builtin as `loadLayout` applies it to a dict key:
parses a str, passes an int through, converts a bool, and raises
`TypeError`/`ValueError` otherwise. -/
def pyIntOf (v : PyKey) : Except PyErr Int :=
  match v with
  | .int n => .ok n
  | .bool b => .ok (if b then 1 else 0)
  | .str s =>
    match pyIntOfString s with
    | some n => .ok n
    | none => .error .valueError
  | .pyNone => .error .typeError

/-- A `QRect(...)` constructor argument: PyQt5 accepts `int` (and `bool`,
being a Python `int`); anything else raises `TypeError`. -/
def cIntOf (v : PyObj) : Except PyErr Int :=
  match v with
  | .int n => .ok n
  | .bool b => .ok (if b then 1 else 0)
  | _ => .error .typeError

/-- One iteration of the conversion loop in `loadLayout`:
`QRect(data['x'], data['y'], data['width'], data['height'])` and
`data['visible']`, in Python evaluation order. -/
def convertEntry (data : PyObj) : Except PyErr LoadedEntry := do
  let xv ← pyGetItem data (.str "x")
  let yv ← pyGetItem data (.str "y")
  let wv ← pyGetItem data (.str "width")
  let hv ← pyGetItem data (.str "height")
  let x ← cIntOf xv
  let y ← cIntOf yv
  let w ← cIntOf wv
  let h ← cIntOf hv
  let vis ← pyGetItem data (.str "visible")
  return ⟨⟨x, y, w, h⟩, vis⟩

/-- The conversion loop of `loadLayout`: builds `converted_layout` by dict
assignment `converted_layout[int(column_id)] = {...}`; the first exception
aborts the whole load. -/
def convertLayout : List (PyKey × PyObj) → List (Int × LoadedEntry) →
    Except PyErr (List (Int × LoadedEntry))
  | [], acc => .ok acc
  | (k, data) :: rest, acc =>
    match pyIntOf k with
    | .error ex => .error ex
    | .ok cid =>
      match convertEntry data with
      | .error ex => .error ex
      | .ok entry => convertLayout rest (assocSet acc cid entry)

/-- The body of `loadLayout` inside its `try`: `None` when the path is unset
or the file does not exist; `json.load` raises on malformed content;
`layout_data.items()` raises `AttributeError` on a non-dict document. -/
def loadLayoutBody (st : LayoutStore) : Except PyErr (Option (List (Int × LoadedEntry))) :=
  match st.file, st.hasConfigPath with
  | _, false => .ok none
  | .absent, true => .ok none
  | .invalidJson, true => .error .valueError
  | .json v, true =>
    match v with
    | .dict items => (convertLayout items []).map some
    | _ => .error (.attributeError "items")

/-- Method `loadLayout` with its `except` boundary: any exception is logged and
surfaced as `None`. -/
def loadLayout (st : LayoutStore) : Option (List (Int × LoadedEntry)) :=
  match loadLayoutBody st with
  | .ok r => r
  | .error _ => none

/-- The per-entry checks of `validateLayout`'s loop, in source order:
`isinstance(column_id, int)`, both required keys present (`key in data` can
raise `TypeError`), `isinstance(data['geometry'], QRect)`,
`isinstance(data['visible'], bool)`. -/
def validateEntry (column_id : PyKey) (data : PyObj) : Except PyErr Bool :=
  if !pyKeyIsInt column_id then .ok false
  else
    match pyContains data (.str "geometry") with
    | .error ex => .error ex
    | .ok hasGeom =>
      match pyContains data (.str "visible") with
      | .error ex => .error ex
      | .ok hasVis =>
        if !(hasGeom && hasVis) then .ok false
        else
          match pyGetItem data (.str "geometry") with
          | .error ex => .error ex
          | .ok geom =>
            if !pyIsRect geom then .ok false
            else
              match pyGetItem data (.str "visible") with
              | .error ex => .error ex
              | .ok vis => if !pyIsBool vis then .ok false else .ok true

/-- The validation loop: the first failing entry decides the answer. -/
def validateLoop : List (PyKey × PyObj) → Except PyErr Bool
  | [] => .ok true
  | (k, data) :: rest =>
    match validateEntry k data with
    | .error ex => .error ex
    | .ok true => validateLoop rest
    | .ok false => .ok false

/-- The body of `validateLayout` inside its `try`: non-dict input and more
than 8 entries are rejected before the per-entry loop. -/
def validateLayoutBody (layout_data : PyObj) : Except PyErr Bool :=
  match layout_data with
  | .dict items =>
    if items.length > 8 then .ok false
    else validateLoop items
  | _ => .ok false

/-- Method `validateLayout` with its `except` boundary: an exception is logged and
reported as `False`. -/
def validateLayout (layout_data : PyObj) : Bool :=
  match validateLayoutBody layout_data with
  | .ok b => b
  | .error _ => false

/-- Method `getDefaultLayout`: a single column, id 1, `QRect(0, 0, 200, 600)`,
visible. -/
def getDefaultLayout : List (Int × Panel) :=
  [(1, ⟨⟨0, 0, 200, 600⟩, true⟩)]

/-- Method `clearSavedLayout`: deletes the file when the path is set and the file
exists, reporting whether a deletion happened. -/
def clearSavedLayout (st : LayoutStore) : LayoutStore × Bool :=
  match st.hasConfigPath, st.file with
  | true, .json _ => ({ hasConfigPath := true, file := .absent }, true)
  | true, .invalidJson => ({ hasConfigPath := true, file := .absent }, true)
  | _, _ => (st, false)

/-! ## `drag_drop_panel_widget.py` — `DragDropPanelWidget`

Each Qt event handler is a `try` body plus an `except` boundary that logs
and suppresses.  A handler body yields the updated widget, the effects it
performed (event accept/ignore, signal emissions, a started drag) and the
exception it raises, if any. -/

/-- The two style sheets a widget ever has: the one `applyStyle` installs
and the highlighted one `highlightDropZone(True)` installs. -/
inductive Style where
  | panelStyle
  | highlightStyle
deriving DecidableEq, Repr

/-- Widget state relevant to the gesture protocol: the current style sheet
and `self.dragStartPosition`, which exists only after a left-button press
(reading it before that raises `AttributeError`). -/
structure WidgetState where
  style : Style
  dragStartPosition : Option QPoint
deriving DecidableEq, Repr

/-- A freshly constructed `DragDropPanelWidget`: `initUI` ran `applyStyle`;
no press has been recorded yet. -/
def initWidget : WidgetState := ⟨.panelStyle, none⟩

/-- Names defined at module level in `drag_drop_panel_widget.py`: the
imported names and the class itself.  `QApplication` is not among them. -/
def dragDropModuleGlobals : List String :=
  ["QWidget", "QVBoxLayout", "QLabel", "QSizeGrip",
   "Qt", "QMimeData", "pyqtSignal", "QPoint", "QSize",
   "QDrag", "QPixmap", "QPainter", "QColor", "QPen",
   "logging", "DragDropPanelWidget"]

/-- Values of `event.button()`. -/
inductive MouseButton where
  | leftButton
  | rightButton
  | otherButton
deriving DecidableEq, Repr

/-- A mouse event: the pressed button, whether `event.buttons()` includes
`Qt.LeftButton`, and `event.pos()`. -/
structure MouseEvent where
  button : MouseButton
  leftButtonHeld : Bool
  pos : QPoint
deriving DecidableEq, Repr

/-- A `QMimeData` as the widget inspects it: its optional text payload.
`hasText()` is `text?.isSome`; `text()` returns the payload or `""`. -/
structure QMimeData where
  text? : Option String
deriving DecidableEq, Repr

/-- The drag operation `mouseMoveEvent` builds before `drag.exec_`:
payload text, `Qt.MoveAction`, the alpha of the
`CompositionMode_DestinationIn` fill `QColor(0, 0, 0, 127)` that produces
the half-opacity ghost pixmap, and the hot spot. -/
structure DragOp where
  mimeText : Option String
  moveAction : Bool
  ghostFillAlpha : Nat
  hotSpot : QPoint
deriving DecidableEq, Repr

/-- Observable effects of one event handler run. -/
inductive Effect where
  | acceptProposed
  | acceptEvent
  | ignoreEvent
  | dragExec (d : DragOp)
  | emitPanelMoved (pos : QPoint)
  | emitPanelResized (s : QSize)
deriving DecidableEq, Repr

/-- The difference `event.pos() - self.dragStartPosition`. -/
def qpointSub (a b : QPoint) : QPoint := ⟨a.x - b.x, a.y - b.y⟩

/-- The length `QPoint.manhattanLength()`: `|x| + |y|`. -/
def manhattanLength (p : QPoint) : Int := Int.ofNat p.x.natAbs + Int.ofNat p.y.natAbs

/-- The result of one handler body: updated widget, effects in order, and
the exception raised at the point the body stopped, if any. -/
structure BodyResult where
  widget : WidgetState
  effects : List Effect
  err : Option PyErr
deriving DecidableEq, Repr

/-- The `mousePressEvent` body: a left press records `dragStartPosition`. -/
def mousePressBody (w : WidgetState) (e : MouseEvent) : BodyResult :=
  if e.button = .leftButton then ⟨{ w with dragStartPosition := some e.pos }, [], none⟩
  else ⟨w, [], none⟩

/-- The `mouseMoveEvent` body.  With the left button held it reads
`self.dragStartPosition` (raising `AttributeError` when no press recorded
it) and then evaluates `QApplication.startDragDistance()`; `QApplication`
is not a module global, so that name lookup raises `NameError` and the
drag construction below it is unreachable.  `threshold` is the platform
drag distance that the call would have returned. -/
def mouseMoveBody (threshold : Int) (w : WidgetState) (e : MouseEvent) : BodyResult :=
  if !e.leftButtonHeld then ⟨w, [], none⟩
  else
    match w.dragStartPosition with
    | none => ⟨w, [], some (.attributeError "dragStartPosition")⟩
    | some origin =>
      if dragDropModuleGlobals.contains "QApplication" then
        if manhattanLength (qpointSub e.pos origin) < threshold then ⟨w, [], none⟩
        else ⟨w, [.dragExec ⟨some "panel", true, 127, e.pos⟩], none⟩
      else ⟨w, [], some (.nameError "QApplication")⟩

/-- The `dragEnterEvent` body: accept and highlight exactly when the payload
has text equal to `"panel"`; otherwise ignore. -/
def dragEnterBody (w : WidgetState) (mime : QMimeData) : BodyResult :=
  if mime.text?.isSome && (mime.text?.getD "" == "panel") then
    ⟨{ w with style := .highlightStyle }, [.acceptProposed], none⟩
  else ⟨w, [.ignoreEvent], none⟩

/-- The `dragLeaveEvent` body: unconditionally un-highlight, then accept. -/
def dragLeaveBody (w : WidgetState) : BodyResult :=
  ⟨{ w with style := .panelStyle }, [.acceptEvent], none⟩

/-- The `dropEvent` body: un-highlight first; on a `"panel"` payload emit
`panelMoved` and accept, otherwise ignore. -/
def dropBody (w : WidgetState) (mime : QMimeData) (pos : QPoint) : BodyResult :=
  let w' := { w with style := .panelStyle }
  if mime.text?.isSome && (mime.text?.getD "" == "panel") then
    ⟨w', [.emitPanelMoved pos, .acceptProposed], none⟩
  else ⟨w', [.ignoreEvent], none⟩

/-- The `resizeEvent` body: forward to the superclass, then emit
`panelResized`. -/
def resizeBody (w : WidgetState) (s : QSize) : BodyResult :=
  ⟨w, [.emitPanelResized s], none⟩

/-- The input events the widget handles. -/
inductive PyEvent where
  | mousePress (e : MouseEvent)
  | mouseMove (e : MouseEvent)
  | dragEnter (mime : QMimeData)
  | dragLeave
  | dropEv (mime : QMimeData) (pos : QPoint)
  | resizeEv (s : QSize)
deriving DecidableEq, Repr

/-- A handler run seen from the host: widget, effects, the exception caught
and logged at the handler boundary, and the exception that escaped to the
host (the `except Exception` wrapper makes the latter impossible). -/
structure HandlerResult where
  widget : WidgetState
  effects : List Effect
  logged : Option PyErr
  raisedToHost : Option PyErr
deriving DecidableEq, Repr

/-- Dispatch one event to its handler: run the `try` body, catch any
exception at the boundary, log it and suppress it. -/
def handleEvent (threshold : Int) (w : WidgetState) (ev : PyEvent) : HandlerResult :=
  let r : BodyResult :=
    match ev with
    | .mousePress e => mousePressBody w e
    | .mouseMove e => mouseMoveBody threshold w e
    | .dragEnter mime => dragEnterBody w mime
    | .dragLeave => dragLeaveBody w
    | .dropEv mime pos => dropBody w mime pos
    | .resizeEv s => resizeBody w s
  match r.err with
  | some ex => ⟨r.widget, r.effects, some ex, none⟩
  | none => ⟨r.widget, r.effects, none, none⟩

/-! ## `panel_manager_extension.py` — `PanelManagerExtension`

`panel_columns` is a dict of column id to widget, embedded as an
insertion-ordered association list.  `updateColumnPositions` resolves the
name `Krita`, which `from krita import Extension` does not bind, so its
body raises `NameError` into its own `except` and changes nothing; the
column dict is never touched by it. -/

/-- The value `max(keys)` over a dict's keys, as `removePanelColumn` computes it on a
nonempty dict. -/
def maxColumnId (m : List (Int × WidgetState)) : Int :=
  match m with
  | [] => 0
  | (k0, _) :: rest => (rest.map Prod.fst).foldl max k0

/-- Python `dict.pop(k)` on an association list (keys are unique in a
Python dict, so removing the first match removes the entry). -/
def assocErase {β : Type} (m : List (Int × β)) (k : Int) : List (Int × β) :=
  match m with
  | [] => []
  | (k', v) :: rest => if k' = k then rest else (k', v) :: assocErase rest k

/-- Method `addPanelColumn`: reject at 8 columns, else insert a fresh
`DragDropPanelWidget` at `len(self.panel_columns) + 1` by dict assignment.
(`updateColumnPositions` then logs a `NameError` and does nothing.) -/
def addPanelColumn (m : List (Int × WidgetState)) : List (Int × WidgetState) × Bool :=
  if 8 ≤ m.length then (m, false)
  else (assocSet m ((m.length : Int) + 1) initWidget, true)

/-- Method `removePanelColumn`: `False` on an empty dict; with no id given, the
target is `max(self.panel_columns.keys())`; a present id is popped
(success), an absent one is reported as failure. -/
def removePanelColumn (m : List (Int × WidgetState)) (column_id? : Option Int) :
    List (Int × WidgetState) × Bool :=
  match m with
  | [] => ([], false)
  | (k0, v0) :: rest =>
    let cid := column_id?.getD (maxColumnId ((k0, v0) :: rest))
    if cid ∈ ((k0, v0) :: rest).map Prod.fst then
      (assocErase ((k0, v0) :: rest) cid, true)
    else ((k0, v0) :: rest, false)

/-- Runs `n` successive `addPanelColumn` calls, collecting each call's result. -/
def addRepeat : Nat → List (Int × WidgetState) → List (Int × WidgetState) × List Bool
  | 0, m => (m, [])
  | n + 1, m =>
    let step := addPanelColumn m
    let rest := addRepeat n step.1
    (rest.1, step.2 :: rest.2)

/-! ## Association-list lemmas -/

theorem assocSet_of_not_mem {β : Type} (m : List (Int × β)) (k : Int) (v : β)
    (h : k ∉ m.map Prod.fst) : assocSet m k v = m ++ [(k, v)] := by
  induction m with
  | nil => rfl
  | cons kv rest ih =>
    obtain ⟨k', v'⟩ := kv
    simp only [List.map_cons, List.mem_cons, not_or] at h
    simp only [assocSet, if_neg (Ne.symm h.1), List.cons_append, List.cons.injEq, true_and]
    exact ih h.2

theorem assocSet_map_fst_of_mem {β : Type} (m : List (Int × β)) (k : Int) (v : β)
    (h : k ∈ m.map Prod.fst) : (assocSet m k v).map Prod.fst = m.map Prod.fst := by
  induction m with
  | nil => simp at h
  | cons kv rest ih =>
    obtain ⟨k', v'⟩ := kv
    by_cases hk : k' = k
    · simp [assocSet, hk]
    · simp only [List.map_cons, List.mem_cons] at h
      rcases h with h | h
      · exact absurd h.symm hk
      · simp [assocSet, hk, ih h]

theorem assocSet_length_of_mem {β : Type} (m : List (Int × β)) (k : Int) (v : β)
    (h : k ∈ m.map Prod.fst) : (assocSet m k v).length = m.length := by
  induction m with
  | nil => simp at h
  | cons kv rest ih =>
    obtain ⟨k', v'⟩ := kv
    by_cases hk : k' = k
    · simp [assocSet, hk]
    · simp only [List.map_cons, List.mem_cons] at h
      rcases h with h | h
      · exact absurd h.symm hk
      · simp [assocSet, hk, ih h]

/-- Lookup in an `Int`-keyed association list. -/
def assocGet? {β : Type} (m : List (Int × β)) (k : Int) : Option β :=
  (m.find? (fun kv => kv.1 == k)).map Prod.snd

theorem assocGet?_assocSet {β : Type} (m : List (Int × β)) (k : Int) (v : β) :
    assocGet? (assocSet m k v) k = some v := by
  induction m with
  | nil => simp [assocSet, assocGet?, List.find?]
  | cons kv rest ih =>
    obtain ⟨k', v'⟩ := kv
    by_cases hk : k' = k
    · simp [assocSet, hk, assocGet?, List.find?]
    · simp only [assocSet, if_neg hk]
      simp only [assocGet?, List.find?] at ih ⊢
      have : (k' == k) = false := by simp [hk]
      simp [this, ih]

theorem assocErase_map_fst {β : Type} (m : List (Int × β)) (k : Int) :
    (assocErase m k).map Prod.fst = (m.map Prod.fst).erase k := by
  induction m with
  | nil => rfl
  | cons kv rest ih =>
    obtain ⟨k', v'⟩ := kv
    by_cases hk : k' = k
    · simp [assocErase, hk, List.erase_cons]
    · simp [assocErase, hk, List.erase_cons, ih]

theorem assocErase_subset {β : Type} (m : List (Int × β)) (k : Int) :
    ∀ kv ∈ assocErase m k, kv ∈ m := by
  induction m with
  | nil => intro kv h; simp [assocErase] at h
  | cons kv0 rest ih =>
    obtain ⟨k', v'⟩ := kv0
    intro kv h
    by_cases hk : k' = k
    · simp only [assocErase, if_pos hk] at h
      exact List.mem_cons_of_mem _ h
    · simp only [assocErase, if_neg hk, List.mem_cons] at h
      rcases h with h | h
      · exact h ▸ List.mem_cons_self _ _
      · exact List.mem_cons_of_mem _ (ih kv h)

/-! ## C1: the save/load round trip -/

theorem pyIntOf_saved_key (i : Int) : pyIntOf (.str (pyStrOfInt i)) = .ok i := by
  simp [pyIntOf, pyIntOfString_pyStrOfInt i]

theorem convertEntry_serializePanel (p : Panel) :
    convertEntry (serializePanel p) = .ok ⟨p.geometry, .bool p.visible⟩ := rfl

/-- What `loadLayout` rebuilds from the record `saveLayout` wrote for one
panel. -/
def loadedOfPanel (cp : Int × Panel) : Int × LoadedEntry :=
  (cp.1, ⟨cp.2.geometry, .bool cp.2.visible⟩)

theorem serializeLayout_cons (cp : Int × Panel) (S : List (Int × Panel)) :
    serializeLayout (cp :: S) =
      (.str (pyStrOfInt cp.1), serializePanel cp.2) :: serializeLayout S := rfl

theorem convertLayout_serializeLayout (S : List (Int × Panel)) :
    ∀ acc : List (Int × LoadedEntry),
    (S.map Prod.fst).Nodup →
    (∀ c ∈ S.map Prod.fst, c ∉ acc.map Prod.fst) →
    convertLayout (serializeLayout S) acc = .ok (acc ++ S.map loadedOfPanel) := by
  induction S with
  | nil => intro acc _ _; simp [serializeLayout, convertLayout]
  | cons cp S ih =>
    intro acc hnd hdisj
    obtain ⟨cid, p⟩ := cp
    rw [serializeLayout_cons]
    simp only [convertLayout, pyIntOf_saved_key, convertEntry_serializePanel]
    rw [assocSet_of_not_mem acc cid _ (hdisj cid (by simp))]
    simp only [List.map_cons, List.nodup_cons] at hnd
    have hdisj' : ∀ c ∈ S.map Prod.fst,
        c ∉ (acc ++ [(cid, (⟨p.geometry, .bool p.visible⟩ : LoadedEntry))]).map Prod.fst := by
      intro c hc
      simp only [List.map_append, List.mem_append, List.map_cons, List.map_nil, not_or]
      refine ⟨hdisj c (List.mem_cons_of_mem _ hc), ?_⟩
      simp only [List.mem_cons, List.not_mem_nil, or_false]
      exact fun hceq => hnd.1 (hceq ▸ hc)
    rw [ih _ hnd.2 hdisj']
    simp [loadedOfPanel]

/-- C1: for every valid snapshot (integer column ids, at most 8 entries,
unique keys) and a manager whose config path resolved, `saveLayout`
succeeds and `loadLayout` reconstructs exactly the saved column ids,
geometries and visibility flags. -/
theorem saveLayout_loadLayout_roundtrip (st : LayoutStore) (S : List (Int × Panel))
    (hpath : st.hasConfigPath = true)
    (hnodup : (S.map Prod.fst).Nodup) (hlen : S.length ≤ 8) :
    (saveLayout st S).2 = true ∧
    loadLayout (saveLayout st S).1 = some (S.map loadedOfPanel) := by
  have hsave : saveLayout st S =
      ({ hasConfigPath := true, file := .json (.dict (serializeLayout S)) }, true) := by
    simp [saveLayout, hpath]
  refine ⟨by rw [hsave], ?_⟩
  rw [hsave]
  simp only [loadLayout, loadLayoutBody]
  rw [convertLayout_serializeLayout S [] hnodup (by simp)]
  simp [Except.map]

/-- Witness for C1 at a concrete snapshot of two panels. -/
theorem saveLayout_loadLayout_roundtrip_witness :
    (saveLayout ⟨true, .absent⟩
      [(1, ⟨⟨0, 0, 200, 600⟩, true⟩), (2, ⟨⟨200, 0, 200, 600⟩, false⟩)]).2 = true ∧
    loadLayout (saveLayout ⟨true, .absent⟩
      [(1, ⟨⟨0, 0, 200, 600⟩, true⟩), (2, ⟨⟨200, 0, 200, 600⟩, false⟩)]).1 =
      some [(1, ⟨⟨0, 0, 200, 600⟩, .bool true⟩), (2, ⟨⟨200, 0, 200, 600⟩, .bool false⟩)] :=
  saveLayout_loadLayout_roundtrip ⟨true, .absent⟩
    [(1, ⟨⟨0, 0, 200, 600⟩, true⟩), (2, ⟨⟨200, 0, 200, 600⟩, false⟩)]
    rfl (by decide) (by decide)

/-! ## C2: what `validateLayout` rejects -/

theorem validateEntry_nonbool_visible (k : PyKey) (dItems : List (PyKey × PyObj)) (w : PyObj)
    (hvis : assocFind? dItems (.str "visible") = some w) (hw : pyIsBool w = false) :
    validateEntry k (.dict dItems) = .ok false := by
  by_cases hki : pyKeyIsInt k
  · cases hg : assocFind? dItems (.str "geometry") with
    | none => simp [validateEntry, hki, pyContains, hvis, hg]
    | some g =>
      by_cases hr : pyIsRect g
      · simp [validateEntry, hki, pyContains, pyGetItem, hvis, hg, hr, hw]
      · simp [validateEntry, hki, pyContains, pyGetItem, hvis, hg, hr]
  · simp [validateEntry, hki]

theorem validateLoop_of_entry_false (items : List (PyKey × PyObj)) (k : PyKey) (data : PyObj)
    (hmem : (k, data) ∈ items) (hfalse : validateEntry k data = .ok false) :
    validateLoop items = .ok false ∨ ∃ ex, validateLoop items = .error ex := by
  induction items with
  | nil => simp at hmem
  | cons kd rest ih =>
    obtain ⟨k0, d0⟩ := kd
    rcases List.mem_cons.mp hmem with heq | hmem'
    · rw [Prod.mk.injEq] at heq
      obtain ⟨rfl, rfl⟩ := heq
      exact Or.inl (by simp [validateLoop, hfalse])
    · cases he : validateEntry k0 d0 with
      | error ex => exact Or.inr ⟨ex, by simp [validateLoop, he]⟩
      | ok b =>
        cases b with
        | true =>
          rcases ih hmem' with h | ⟨ex, h⟩
          · exact Or.inl (by simp [validateLoop, he, h])
          · exact Or.inr ⟨ex, by simp [validateLoop, he, h]⟩
        | false => exact Or.inl (by simp [validateLoop, he])

/-- C2 (amended): `validateLayout` returns `False` on every dict with more
than 8 entries and on every dict one of whose entries carries a `'visible'`
value that is not a boolean; being a pure function of its argument, it
never mutates it.  (No check of geometry sign exists: see the
counterexample theorem.) -/
theorem validateLayout_spec (items : List (PyKey × PyObj)) :
    (8 < items.length → validateLayout (.dict items) = false) ∧
    (∀ k dItems w, (k, PyObj.dict dItems) ∈ items →
      assocFind? dItems (.str "visible") = some w → pyIsBool w = false →
      validateLayout (.dict items) = false) := by
  constructor
  · intro hlen
    simp [validateLayout, validateLayoutBody, hlen]
  · intro k dItems w hmem hvis hw
    have hentry := validateEntry_nonbool_visible k dItems w hvis hw
    have hloop := validateLoop_of_entry_false items k (.dict dItems) hmem hentry
    by_cases hlen : 8 < items.length
    · simp [validateLayout, validateLayoutBody, hlen]
    · rcases hloop with h | ⟨ex, h⟩
      · simp [validateLayout, validateLayoutBody, hlen, h]
      · simp [validateLayout, validateLayoutBody, hlen, h]

/-- A one-entry layout whose geometry has negative width and height but is
otherwise well-formed. -/
def negGeomLayout : PyObj :=
  .dict [(.int 1, .dict [(.str "geometry", .rect ⟨0, 0, -1, -1⟩),
                         (.str "visible", .bool true)])]

/-- C2 counterexample: `validateLayout` accepts a mapping whose only entry
has width `-1` and height `-1`, because the source never inspects the
`QRect`'s dimensions — refuting the claim that such mappings are
rejected. -/
theorem validateLayout_accepts_negative_geometry :
    validateLayout negGeomLayout = true := rfl

/-- A dict with nine entries (the values are irrelevant to the size
check). -/
def nineEntryItems : List (PyKey × PyObj) :=
  [(.int 1, .pyNone), (.int 2, .pyNone), (.int 3, .pyNone), (.int 4, .pyNone),
   (.int 5, .pyNone), (.int 6, .pyNone), (.int 7, .pyNone), (.int 8, .pyNone),
   (.int 9, .pyNone)]

/-- Witness for C2: both rejection clauses applied at concrete inputs. -/
theorem validateLayout_spec_witness :
    validateLayout (.dict nineEntryItems) = false ∧
    validateLayout (.dict [(.int 1, PyObj.dict [(.str "visible", .int 0)])]) = false :=
  ⟨(validateLayout_spec nineEntryItems).1 (by decide),
   (validateLayout_spec [(.int 1, PyObj.dict [(.str "visible", .int 0)])]).2
     (.int 1) [(.str "visible", .int 0)] (.int 0) (by simp) rfl rfl⟩

/-! ## C6: what `loadLayout` can return -/

theorem assocSet_fst_self {β : Type} (m : List (Int × β)) (k : Int) (v : β) :
    k ∈ (assocSet m k v).map Prod.fst := by
  induction m with
  | nil => simp [assocSet]
  | cons kv rest ih =>
    obtain ⟨k', v'⟩ := kv
    by_cases hk : k' = k
    · simp [assocSet, hk]
    · simp only [assocSet, if_neg hk, List.map_cons, List.mem_cons]
      exact Or.inr ih

theorem assocSet_fst_mono {β : Type} (m : List (Int × β)) (k : Int) (v : β) (c : Int)
    (h : c ∈ m.map Prod.fst) : c ∈ (assocSet m k v).map Prod.fst := by
  induction m with
  | nil => simp at h
  | cons kv rest ih =>
    obtain ⟨k', v'⟩ := kv
    simp only [List.map_cons, List.mem_cons] at h
    by_cases hk : k' = k
    · rcases h with h | h
      · simp [assocSet, hk, hk ▸ h]
      · simp only [assocSet, if_pos hk, List.map_cons, List.mem_cons]
        exact Or.inr h
    · rcases h with h | h
      · simp [assocSet, hk, h]
      · simp only [assocSet, if_neg hk, List.map_cons, List.mem_cons]
        exact Or.inr (ih h)

theorem convertLayout_keys_mono (l : List (PyKey × PyObj)) :
    ∀ acc m, convertLayout l acc = .ok m →
    ∀ c ∈ acc.map Prod.fst, c ∈ m.map Prod.fst := by
  induction l with
  | nil =>
    intro acc m h c hc
    simp only [convertLayout, Except.ok.injEq] at h
    exact h ▸ hc
  | cons kd rest ih =>
    intro acc m h c hc
    obtain ⟨k, data⟩ := kd
    simp only [convertLayout] at h
    cases hk : pyIntOf k with
    | error ex => rw [hk] at h; cases h
    | ok cid =>
      rw [hk] at h
      cases he : convertEntry data with
      | error ex => rw [he] at h; cases h
      | ok entry =>
        rw [he] at h
        exact ih _ m h c (assocSet_fst_mono acc cid entry c hc)

theorem convertLayout_complete (l : List (PyKey × PyObj)) :
    ∀ acc m, convertLayout l acc = .ok m →
    ∀ kd ∈ l, ∃ cid entry, pyIntOf kd.1 = .ok cid ∧ convertEntry kd.2 = .ok entry ∧
      cid ∈ m.map Prod.fst := by
  induction l with
  | nil => intro acc m _ kd hkd; simp at hkd
  | cons kd0 rest ih =>
    intro acc m h kd hkd
    obtain ⟨k, data⟩ := kd0
    simp only [convertLayout] at h
    cases hk : pyIntOf k with
    | error ex => rw [hk] at h; cases h
    | ok cid =>
      rw [hk] at h
      cases he : convertEntry data with
      | error ex => rw [he] at h; cases h
      | ok entry =>
        rw [he] at h
        rcases List.mem_cons.mp hkd with heq | hmem
        · subst heq
          exact ⟨cid, entry, hk, he,
            convertLayout_keys_mono rest _ m h cid (assocSet_fst_self acc cid entry)⟩
        · exact ih _ m h kd hmem

/-- C6 (amended): `loadLayout` returns `None` when the config path is
unset, the file is absent, or its content is malformed; and whenever it
does return a mapping, that mapping is complete — every entry of the
stored record was converted without fault (so its key parsed to an int and
its geometry fields built a `QRect`) and its column id is a key of the
result.  `loadLayout` performs no validation beyond this conversion: the
size bound and the type of the visibility value are not checked. -/
theorem loadLayout_spec (hp : Bool) (f : FileState) :
    (hp = false → loadLayout ⟨hp, f⟩ = none) ∧
    (f = .absent → loadLayout ⟨hp, f⟩ = none) ∧
    (f = .invalidJson → loadLayout ⟨hp, f⟩ = none) ∧
    (∀ items m, f = .json (.dict items) → loadLayout ⟨hp, f⟩ = some m →
      ∀ kd ∈ items, ∃ cid entry, pyIntOf kd.1 = .ok cid ∧ convertEntry kd.2 = .ok entry ∧
        cid ∈ m.map Prod.fst) := by
  refine ⟨?_, ?_, ?_, ?_⟩
  · intro h; subst h; cases f <;> rfl
  · intro h; subst h; cases hp <;> rfl
  · intro h; subst h; cases hp <;> rfl
  · intro items m hf hm kd hkd
    subst hf
    cases hp with
    | false => simp [loadLayout, loadLayoutBody] at hm
    | true =>
      simp only [loadLayout, loadLayoutBody] at hm
      cases hc : convertLayout items [] with
      | error ex => rw [hc] at hm; simp [Except.map] at hm
      | ok r =>
        rw [hc] at hm
        simp only [Except.map] at hm
        cases hm
        exact convertLayout_complete items [] m hc kd hkd

/-- Witness for C6: an absent file loads as `None`. -/
theorem loadLayout_spec_witness : loadLayout ⟨true, .absent⟩ = none :=
  (loadLayout_spec true .absent).2.1 rfl

/-- The snapshot invariant the claim asserts of any mapping `loadLayout`
returns: at most 8 entries, boolean visibility, non-negative geometry. -/
def entryInvariant (e : Int × LoadedEntry) : Bool :=
  pyIsBool e.2.visible && decide (0 ≤ e.2.geometry.width) && decide (0 ≤ e.2.geometry.height)

def snapshotInvariant (m : List (Int × LoadedEntry)) : Bool :=
  decide (m.length ≤ 8) && m.all entryInvariant

/-- Holds (as `true`) exactly when `loadLayout` returns `None` or a mapping satisfying
the snapshot invariant — the property C6 claims of every store. -/
def loadedInvariantHolds (st : LayoutStore) : Bool :=
  match loadLayout st with
  | none => true
  | some m => snapshotInvariant m

/-- One serialised panel record as found in the layout file. -/
def storedPanelRecord (x y w h : Int) (vis : PyObj) : PyObj :=
  .dict [(.str "x", .int x), (.str "y", .int y), (.str "width", .int w),
         (.str "height", .int h), (.str "visible", vis)]

/-- A well-formed JSON layout file with nine columns, the first of which
stores `0` (an int, not a bool) under `'visible'`. -/
def nineColumnFile : PyObj :=
  .dict [(.str "1", storedPanelRecord 0 0 100 100 (.int 0)),
         (.str "2", storedPanelRecord 100 0 100 100 (.bool true)),
         (.str "3", storedPanelRecord 200 0 100 100 (.bool true)),
         (.str "4", storedPanelRecord 300 0 100 100 (.bool true)),
         (.str "5", storedPanelRecord 400 0 100 100 (.bool true)),
         (.str "6", storedPanelRecord 500 0 100 100 (.bool true)),
         (.str "7", storedPanelRecord 600 0 100 100 (.bool true)),
         (.str "8", storedPanelRecord 700 0 100 100 (.bool true)),
         (.str "9", storedPanelRecord 800 0 100 100 (.bool true))]

def store9 : LayoutStore := ⟨true, .json nineColumnFile⟩

/-- C6 counterexample: on a parseable nine-column file, `loadLayout`
returns a mapping (not `None`) with nine entries, one of them with a
non-boolean visibility — refuting the claim that any returned mapping
satisfies the snapshot invariant. -/
theorem loadLayout_store9_breaks_invariant : loadedInvariantHolds store9 = false := rfl

/-! ## C4, C5, C10: column management in the extension -/

theorem foldl_max_mem (l : List Int) : ∀ a : Int, l.foldl max a = a ∨ l.foldl max a ∈ l := by
  induction l with
  | nil => intro a; exact Or.inl rfl
  | cons b l ih =>
    intro a
    rcases ih (max a b) with h | h
    · rcases max_choice a b with hm | hm
      · exact Or.inl (by rw [List.foldl_cons, h, hm])
      · exact Or.inr (by rw [List.foldl_cons, h, hm]; exact List.mem_cons_self b l)
    · exact Or.inr (List.mem_cons_of_mem b h)

theorem le_foldl_max (l : List Int) : ∀ a : Int,
    a ≤ l.foldl max a ∧ ∀ x ∈ l, x ≤ l.foldl max a := by
  induction l with
  | nil => intro a; exact ⟨le_refl a, by simp⟩
  | cons b l ih =>
    intro a
    obtain ⟨h1, h2⟩ := ih (max a b)
    rw [List.foldl_cons]
    refine ⟨le_trans (le_max_left a b) h1, ?_⟩
    intro x hx
    rcases List.mem_cons.mp hx with hx | hx
    · have hxb : x ≤ max a b := by rw [hx]; exact le_max_right a b
      exact le_trans hxb h1
    · exact h2 x hx

theorem maxColumnId_mem (m : List (Int × WidgetState)) (h : m ≠ []) :
    maxColumnId m ∈ m.map Prod.fst := by
  match m with
  | [] => exact absurd rfl h
  | (k0, v0) :: rest =>
    simp only [maxColumnId, List.map_cons, List.mem_cons]
    rcases foldl_max_mem (rest.map Prod.fst) k0 with hm | hm
    · exact Or.inl hm
    · exact Or.inr hm

theorem le_maxColumnId (m : List (Int × WidgetState)) (k : Int)
    (h : k ∈ m.map Prod.fst) : k ≤ maxColumnId m := by
  match m with
  | [] => simp at h
  | (k0, v0) :: rest =>
    simp only [List.map_cons, List.mem_cons] at h
    simp only [maxColumnId]
    rcases h with h | h
    · exact h ▸ (le_foldl_max (rest.map Prod.fst) k0).1
    · exact (le_foldl_max (rest.map Prod.fst) k0).2 k h

/-- C4: with the column dict at its 8-entry capacity, `addPanelColumn`
fails and changes nothing; and from an empty dict, eight successive calls
all succeed, producing exactly the ids 1..8, while a ninth call fails with
the count still 8. -/
theorem addPanelColumn_capacity (m : List (Int × WidgetState)) (h : m.length = 8) :
    addPanelColumn m = (m, false) ∧
    (addRepeat 8 []).2 = [true, true, true, true, true, true, true, true] ∧
    (addRepeat 8 []).1.map Prod.fst = [1, 2, 3, 4, 5, 6, 7, 8] ∧
    (addRepeat 8 []).1.length = 8 ∧
    addPanelColumn (addRepeat 8 []).1 = ((addRepeat 8 []).1, false) := by
  refine ⟨?_, by decide, by decide, by decide, by decide⟩
  simp [addPanelColumn, h]

/-- Witness for C4 at the concrete 8-column dict the eight successive
calls build. -/
theorem addPanelColumn_capacity_witness :
    addPanelColumn (addRepeat 8 []).1 = ((addRepeat 8 []).1, false) :=
  (addPanelColumn_capacity (addRepeat 8 []).1 (by decide)).1

/-- C5: removing an absent column id fails and leaves the dict unchanged;
on a nonempty dict, removal with no id targets precisely the maximum
existing id: it succeeds, drops exactly that key, and keeps every other
entry. -/
theorem removePanelColumn_spec (m : List (Int × WidgetState)) (cid : Int) :
    (cid ∉ m.map Prod.fst → removePanelColumn m (some cid) = (m, false)) ∧
    (m ≠ [] →
      (removePanelColumn m none).2 = true ∧
      maxColumnId m ∈ m.map Prod.fst ∧
      (∀ k ∈ m.map Prod.fst, k ≤ maxColumnId m) ∧
      (removePanelColumn m none).1.map Prod.fst = (m.map Prod.fst).erase (maxColumnId m) ∧
      (∀ kv ∈ (removePanelColumn m none).1, kv ∈ m)) := by
  constructor
  · intro hcid
    match m with
    | [] => rfl
    | (k0, v0) :: rest =>
      simp only [removePanelColumn, Option.getD_some]
      rw [if_neg hcid]
  · intro hne
    match m with
    | [] => exact absurd rfl hne
    | (k0, v0) :: rest =>
      have hmem : maxColumnId ((k0, v0) :: rest) ∈ ((k0, v0) :: rest).map Prod.fst :=
        maxColumnId_mem _ (by simp)
      have hred : removePanelColumn ((k0, v0) :: rest) none =
          (assocErase ((k0, v0) :: rest) (maxColumnId ((k0, v0) :: rest)), true) := by
        simp only [removePanelColumn, Option.getD_none]
        rw [if_pos hmem]
      refine ⟨by rw [hred], hmem, fun k hk => le_maxColumnId _ k hk, ?_, ?_⟩
      · rw [hred]
        exact assocErase_map_fst _ _
      · rw [hred]
        exact assocErase_subset _ _

/-- Witness for C5 on the dict `{1, 3}` with the absent id 2. -/
theorem removePanelColumn_spec_witness :
    removePanelColumn [(1, initWidget), (3, initWidget)] (some 2) =
      ([(1, initWidget), (3, initWidget)], false) ∧
    (removePanelColumn [(1, initWidget), (3, initWidget)] none).2 = true ∧
    (removePanelColumn [(1, initWidget), (3, initWidget)] none).1.map Prod.fst =
      ([1, 3] : List Int).erase (maxColumnId [(1, initWidget), (3, initWidget)]) :=
  ⟨(removePanelColumn_spec [(1, initWidget), (3, initWidget)] 2).1 (by decide),
   ((removePanelColumn_spec [(1, initWidget), (3, initWidget)] 2).2 (by decide)).1,
   ((removePanelColumn_spec [(1, initWidget), (3, initWidget)] 2).2 (by decide)).2.2.2.1⟩

/-- C10: when the ids are non-contiguous and `len(self.panel_columns) + 1`
is already a key (for example `{1, 3}`), `addPanelColumn` still reports
success, but the dict assignment replaces the widget stored at that id:
the key set and the column count are unchanged. -/
theorem addPanelColumn_id_collision (m : List (Int × WidgetState))
    (hlen : m.length < 8) (hmem : ((m.length : Int) + 1) ∈ m.map Prod.fst) :
    (addPanelColumn m).2 = true ∧
    (addPanelColumn m).1.length = m.length ∧
    (addPanelColumn m).1.map Prod.fst = m.map Prod.fst ∧
    assocGet? (addPanelColumn m).1 ((m.length : Int) + 1) = some initWidget := by
  have hred : addPanelColumn m = (assocSet m ((m.length : Int) + 1) initWidget, true) := by
    simp only [addPanelColumn]
    rw [if_neg (by omega)]
  rw [hred]
  exact ⟨rfl, assocSet_length_of_mem m _ _ hmem, assocSet_map_fst_of_mem m _ _ hmem,
    assocGet?_assocSet m _ _⟩

/-- Witness for C10 on the dict `{1, 3}`: the computed id 3 collides. -/
theorem addPanelColumn_id_collision_witness :
    (addPanelColumn [(1, initWidget), (3, initWidget)]).2 = true ∧
    (addPanelColumn [(1, initWidget), (3, initWidget)]).1.length = 2 ∧
    (addPanelColumn [(1, initWidget), (3, initWidget)]).1.map Prod.fst = [1, 3] :=
  ⟨(addPanelColumn_id_collision [(1, initWidget), (3, initWidget)] (by decide) (by decide)).1,
   (addPanelColumn_id_collision [(1, initWidget), (3, initWidget)] (by decide) (by decide)).2.1,
   (addPanelColumn_id_collision [(1, initWidget), (3, initWidget)] (by decide) (by decide)).2.2.1⟩

/-! ## C3, C7, C8, C9: the widget's event handlers -/

theorem no_QApplication_in_module : "QApplication" ∉ dragDropModuleGlobals := by decide

/-- C3 (the slip the code makes): for every mouse move with the left button
held — whatever the displacement or threshold — the handler performs no
effect at all: reading `QApplication.startDragDistance()` raises
`NameError` (`AttributeError` first if no press recorded an origin), the
boundary logs it, and no drag operation, payload or ghost pixmap is ever
created. -/
theorem mouseMove_drag_never_starts (threshold : Int) (w : WidgetState) (e : MouseEvent)
    (h : e.leftButtonHeld = true) :
    (handleEvent threshold w (.mouseMove e)).effects = [] ∧
    (handleEvent threshold w (.mouseMove e)).widget = w ∧
    (handleEvent threshold w (.mouseMove e)).logged =
      some (match w.dragStartPosition with
        | none => PyErr.attributeError "dragStartPosition"
        | some _ => PyErr.nameError "QApplication") := by
  cases hds : w.dragStartPosition with
  | none => simp [handleEvent, mouseMoveBody, h, hds]
  | some origin => simp [handleEvent, mouseMoveBody, h, hds, no_QApplication_in_module]

/-- Witness for C3: press origin `(0, 0)`, move to `(100, 100)`, threshold
10 — displacement 200 far exceeds the threshold, yet nothing happens. -/
theorem mouseMove_drag_never_starts_witness :
    (handleEvent 10 ⟨.panelStyle, some ⟨0, 0⟩⟩
      (.mouseMove ⟨.leftButton, true, ⟨100, 100⟩⟩)).effects = [] ∧
    (handleEvent 10 ⟨.panelStyle, some ⟨0, 0⟩⟩
      (.mouseMove ⟨.leftButton, true, ⟨100, 100⟩⟩)).widget = ⟨.panelStyle, some ⟨0, 0⟩⟩ ∧
    (handleEvent 10 ⟨.panelStyle, some ⟨0, 0⟩⟩
      (.mouseMove ⟨.leftButton, true, ⟨100, 100⟩⟩)).logged =
      some (.nameError "QApplication") :=
  mouseMove_drag_never_starts 10 ⟨.panelStyle, some ⟨0, 0⟩⟩
    ⟨.leftButton, true, ⟨100, 100⟩⟩ rfl

/-- C7: after a drag-leave and after a drop — whatever the payload — the
widget's style sheet is the non-highlighted one. -/
theorem no_residual_highlight (threshold : Int) (w : WidgetState) (mime : QMimeData)
    (pos : QPoint) :
    (handleEvent threshold w .dragLeave).widget.style = .panelStyle ∧
    (handleEvent threshold w (.dropEv mime pos)).widget.style = .panelStyle := by
  refine ⟨rfl, ?_⟩
  cases hc : mime.text?.isSome && (mime.text?.getD "" == "panel") <;>
    simp [handleEvent, dropBody, hc]

/-- C8: a drag-enter whose payload text is not `"panel"` (including no text
at all) leaves the widget fully unchanged — in particular it never installs
the highlighted style — and its only effect is `event.ignore()`. -/
theorem dragEnter_non_panel (threshold : Int) (w : WidgetState) (mime : QMimeData)
    (h : mime.text? ≠ some "panel") :
    handleEvent threshold w (.dragEnter mime) = ⟨w, [.ignoreEvent], none, none⟩ := by
  have hc : (mime.text?.isSome && (mime.text?.getD "" == "panel")) = false := by
    cases hm : mime.text? with
    | none => rfl
    | some s =>
      have hs : s ≠ "panel" := fun hseq => h (by rw [hm, hseq])
      simp [hs]
  simp [handleEvent, dragEnterBody, hc]

/-- Witness for C8 with a `"file"` payload. -/
theorem dragEnter_non_panel_witness :
    handleEvent 10 initWidget (.dragEnter ⟨some "file"⟩) =
      ⟨initWidget, [.ignoreEvent], none, none⟩ :=
  dragEnter_non_panel 10 initWidget ⟨some "file"⟩ (by decide)

/-- C9: no handler lets an exception escape to the host — any body fault is
caught at the handler boundary and logged — and in particular a mouse move
with the left button held but no recorded press origin faults internally
(`AttributeError`), is logged, and leaves the widget unchanged and
usable. -/
theorem handlers_never_propagate (threshold : Int) (w : WidgetState) (ev : PyEvent) :
    (handleEvent threshold w ev).raisedToHost = none ∧
    (∀ e : MouseEvent, e.leftButtonHeld = true → w.dragStartPosition = none →
      (handleEvent threshold w (.mouseMove e)).logged.isSome = true ∧
      (handleEvent threshold w (.mouseMove e)).widget = w) := by
  constructor
  · simp only [handleEvent]
    split <;> rfl
  · intro e h1 h2
    simp [handleEvent, mouseMoveBody, h1, h2]

/-- Witness for C9: a move with no prior press on a fresh widget. -/
theorem handlers_never_propagate_witness :
    (handleEvent 10 initWidget (.mouseMove ⟨.leftButton, true, ⟨5, 5⟩⟩)).raisedToHost = none ∧
    (handleEvent 10 initWidget (.mouseMove ⟨.leftButton, true, ⟨5, 5⟩⟩)).logged.isSome = true ∧
    (handleEvent 10 initWidget (.mouseMove ⟨.leftButton, true, ⟨5, 5⟩⟩)).widget = initWidget :=
  ⟨(handlers_never_propagate 10 initWidget (.mouseMove ⟨.leftButton, true, ⟨5, 5⟩⟩)).1,
   ((handlers_never_propagate 10 initWidget (.mouseMove ⟨.leftButton, true, ⟨5, 5⟩⟩)).2
     ⟨.leftButton, true, ⟨5, 5⟩⟩ rfl rfl).1,
   ((handlers_never_propagate 10 initWidget (.mouseMove ⟨.leftButton, true, ⟨5, 5⟩⟩)).2
     ⟨.leftButton, true, ⟨5, 5⟩⟩ rfl rfl).2⟩

end KritaPanel
